import Mathlib

set_option maxHeartbeats 1000000

/-! Shallow embedding of `src/main.py` (class `TemplateDisplacement`): an
image-displacement compositor for t-shirt templates.  Images are RGBA pixel
grids; the intensity (displacement) field is a grayscale grid derived from the
template.  Python floats are modelled by `ℚ` where only rational arithmetic
occurs and by `ℝ` where `sin` and `** 1.5` appear; Python `int(...)`
(truncation toward zero) is `truncQ` / `truncR`; Python `//` (floor division)
is `Int.fdiv`; a raised Python exception is the explicit value
`PlaceResult.raise`. -/

/-- RGBA pixel: four 8-bit channels (channel values kept in `ℕ`). -/
@[ext]
structure Pixel where
  r : ℕ
  g : ℕ
  b : ℕ
  a : ℕ

/-- Image buffer: `width × height` grid of RGBA pixels; `pix y x` is the pixel
at row `y`, column `x` (numpy index order). -/
@[ext]
structure Img where
  width : ℕ
  height : ℕ
  pix : ℕ → ℕ → Pixel

/-- Single-channel intensity field (the `np.array` of the grayscale template). -/
structure Field2D where
  width : ℕ
  height : ℕ
  val : ℕ → ℕ → ℕ

/-- Fully transparent black pixel (the `np.zeros_like` default). -/
def transparent : Pixel := ⟨0, 0, 0, 0⟩

/-- PIL `convert('L')` luminance of one pixel:
`L = (19595·R + 38470·G + 7471·B + 32768) >> 16` (ITU-R 601 fixed point). -/
def lum (p : Pixel) : ℕ := (19595 * p.r + 38470 * p.g + 7471 * p.b + 32768) / 65536

/-- State of the Python class: template image (stored as RGBA), optional
displacement map, optional selected area `(x1, y1, x2, y2)`.
`set_selected_area` only ever stores a clamped, normalized rectangle, so the
coordinates are kept as naturals. -/
structure TemplateDisplacement where
  template : Img
  displacement_map : Option Field2D
  selected_area : Option (ℕ × ℕ × ℕ × ℕ)

/-- Constructor `__init__`: no map, no selection yet. -/
def TemplateDisplacement.init (t : Img) : TemplateDisplacement := ⟨t, none, none⟩

/-- Method `create_displacement_map`: grayscale field from the template. -/
def create_displacement_map (s : TemplateDisplacement) : TemplateDisplacement :=
  let m : Field2D := ⟨s.template.width, s.template.height, fun y x => lum (s.template.pix y x)⟩
  { s with displacement_map := some m }

/-- One clamped coordinate, `max(0, min(v, bound))` (lines 36-39). -/
def clampCoord (v : ℤ) (bound : ℕ) : ℤ := max 0 (min v (bound : ℤ))

/-- Clamp-and-normalize step of `set_selected_area`: clamp the four
coordinates to the template bounds, then swap each pair so the first is the
lesser (lines 34-45). -/
def normalizeSel (w h : ℕ) (x1 y1 x2 y2 : ℤ) : ℕ × ℕ × ℕ × ℕ :=
  let a1 := clampCoord x1 w
  let b1 := clampCoord y1 h
  let a2 := clampCoord x2 w
  let b2 := clampCoord y2 h
  let px := if a2 < a1 then (a2, a1) else (a1, a2)
  let py := if b2 < b1 then (b2, b1) else (b1, b2)
  (px.1.toNat, py.1.toNat, px.2.toNat, py.2.toNat)

/-- Method `set_selected_area` (lines 27-47). -/
def set_selected_area (s : TemplateDisplacement) (x1 y1 x2 y2 : ℤ) : TemplateDisplacement :=
  { s with selected_area := some (normalizeSel s.template.width s.template.height x1 y1 x2 y2) }

/-- Python `int(q)` applied to a rational: truncation toward zero. -/
def truncQ (q : ℚ) : ℤ := if 0 ≤ q then ⌊q⌋ else ⌈q⌉

/-- Python `int(r)` applied to a real: truncation toward zero. -/
noncomputable def truncR (r : ℝ) : ℤ := if 0 ≤ r then ⌊r⌋ else ⌈r⌉

/-- Lines 110-112: `disp_amount = v / 255.0` and
`crease_intensity = (1 - disp_amount) ** 1.5`; for the nonnegative bases
arising here `t ** 1.5 = √(t³)`. -/
noncomputable def creaseIntensity (v : ℕ) : ℝ := Real.sqrt ((1 - (v : ℝ) / 255) ^ 3)

/-- Line 115 together with the line-119 clamp: destination column of source
pixel `(x, y)` whose sampled field value is `v`, inside a resized graphic of
width `sw`. -/
noncomputable def newX (x y v sw : ℕ) : ℤ :=
  min (max (truncR ((x : ℝ) + creaseIntensity v * 8 * Real.sin ((y : ℝ) / 10))) 0) ((sw : ℤ) - 1)

/-- Line 116 together with the line-120 clamp: destination row. -/
noncomputable def newY (y v sh : ℕ) : ℤ :=
  min (max (truncR ((y : ℝ) + creaseIntensity v * 6)) 0) ((sh : ℤ) - 1)

/-- Lines 74-81: aspect-ratio adjustment of the scaled size.  `none` models
the float `ZeroDivisionError` raised by `scaled_width / original_aspect` when
`original_aspect` is zero (a zero-width graphic). -/
def adjustDims (gw gh : ℕ) (sw sh : ℤ) : Option (ℤ × ℤ) :=
  let oa : ℚ := (gw : ℚ) / (gh : ℚ)
  let ta : ℚ := (sw : ℚ) / (sh : ℚ)
  if oa > ta then some (truncQ ((sh : ℚ) * oa), sh)
  else if gw = 0 then none
  else some (sw, truncQ ((sw : ℚ) / oa))

/-- Lines 86-87: centering offset `c + (a - sF) // 2` (Python floor division,
the operands may make the numerator negative). -/
def centerOffset (c a sF : ℕ) : ℤ := (c : ℤ) + Int.fdiv ((a : ℤ) - (sF : ℤ)) 2

/-- Line 90: dimensions `(width, height)` of the numpy slice
`map[y1:y2, x1:x2]`; numpy clips slice indices to the array bounds, an
out-of-range slice is simply empty. -/
def sliceDims (m : Field2D) (x1 y1 x2 y2 : ℕ) : ℕ × ℕ :=
  (min x2 m.width - min x1 m.width, min y2 m.height - min y1 m.height)

/-- Value of the sliced sub-region at row `i`, column `j`. -/
def sliceVal (m : Field2D) (x1 y1 i j : ℕ) : ℕ :=
  m.val (min y1 m.height + i) (min x1 m.width + j)

/-- Lines 102-122, the displacement-loop body for source pixel `p = (y, x)`:
map into sub-region coordinates, skip the pixel when the map coordinates fall
outside the sub-region (`continue`), otherwise write the source pixel at the
displaced, clamped destination (a later write overwrites an earlier one). -/
noncomputable def dispStep (gpix : ℕ → ℕ → Pixel) (aw ah sw sh regW regH : ℕ)
    (m : Field2D) (x1 y1 : ℕ) (acc : ℕ → ℕ → Pixel) (p : ℕ × ℕ) : ℕ → ℕ → Pixel :=
  let y := p.1
  let x := p.2
  let map_x := truncQ ((x : ℚ) * ((aw : ℚ) / (sw : ℚ)))
  let map_y := truncQ ((y : ℚ) * ((ah : ℚ) / (sh : ℚ)))
  if (regH : ℤ) ≤ map_y ∨ (regW : ℤ) ≤ map_x then acc
  else
    let v := sliceVal m x1 y1 map_y.toNat map_x.toNat
    let ny := (newY y v sh).toNat
    let nx := (newX x y v sw).toNat
    fun i j => if i = ny ∧ j = nx then gpix y x else acc i j

/-- Scan order of the nested loops of lines 100-101 (`y` outer, `x` inner). -/
def scanOrder (sh sw : ℕ) : List (ℕ × ℕ) :=
  (List.range sh).flatMap fun y => (List.range sw).map fun x => (y, x)

/-- Lines 97-122: the displaced buffer, built from `np.zeros_like` (all
transparent) by running the loop body over every pixel in scan order. -/
noncomputable def displacedPix (gpix : ℕ → ℕ → Pixel) (aw ah sw sh regW regH : ℕ)
    (m : Field2D) (x1 y1 : ℕ) : ℕ → ℕ → Pixel :=
  (scanOrder sh sw).foldl (dispStep gpix aw ah sw sh regW regH m x1 y1) fun _ _ => transparent

/-- PIL fixed-point `a * b / 255` with rounding (the `MULDIV255` macro). -/
def muldiv255 (a b : ℕ) : ℕ := ((a * b + 128) / 256 + (a * b + 128)) / 256

/-- PIL per-channel paste blend with mask value `mk`: `BLEND(mk, dst, src)`. -/
def blendChan (mk d s : ℕ) : ℕ := muldiv255 d (255 - mk) + muldiv255 s mk

/-- Blend one destination pixel with one source pixel under mask value `mk`. -/
def blendPix (mk : ℕ) (d s : Pixel) : Pixel :=
  ⟨blendChan mk d.r s.r, blendChan mk d.g s.g, blendChan mk d.b s.b, blendChan mk d.a s.a⟩

/-- Line 130: `result.paste(src, (xOff, yOff), src)` — paste `src` onto a copy
of `dest` at the given (possibly negative) offsets, using the alpha channel of
`src` as the mask; destination pixels outside the pasted region are kept. -/
def pasteImg (dest src : Img) (xOff yOff : ℤ) : Img where
  width := dest.width
  height := dest.height
  pix := fun dy dx =>
    let i : ℤ := (dy : ℤ) - yOff
    let j : ℤ := (dx : ℤ) - xOff
    if 0 ≤ i ∧ i < (src.height : ℤ) ∧ 0 ≤ j ∧ j < (src.width : ℤ) then
      let sp := src.pix i.toNat j.toNat
      blendPix sp.a (dest.pix dy dx) sp
    else dest.pix dy dx

/-- Python exceptions that `place_graphic` can raise. -/
inductive PyError where
  | valueError
  | zeroDivisionError
  | typeError
  deriving DecidableEq

/-- Outcome of `place_graphic`: a returned image, or a raised exception. -/
inductive PlaceResult where
  | ok (img : Img)
  | raise (e : PyError)

/-- True when a `place_graphic` call returned an image. -/
def PlaceResult.isOk : PlaceResult → Bool
  | .ok _ => true
  | .raise _ => false

/-- Method `place_graphic` (lines 49-132).  `resizePix graphic w h` is the
pixel grid of the Lanczos-resampled graphic at size `w × h`: the resampling
kernel is an external library routine, only the output dimensions — which PIL
guarantees equal the requested size — matter to the algorithm (negative
requested sizes, which no reachable state produces, are modelled by
`Int.toNat`).  A raised `ValueError` (no selection, line 59),
`ZeroDivisionError` (the divisions of lines 75, 76 and 81) or `TypeError`
(slicing a `None` map at line 90) is an explicit `raise` value.  The
`IndexError` handler of lines 124-126 has no counterpart here because every
array access of the loop is in bounds (settled separately).  Stored
selections always satisfy `x1 ≤ x2` and `y1 ≤ y2`, so the natural-number
subtractions computing the area size are exact. -/
noncomputable def place_graphic (resizePix : Img → ℕ → ℕ → ℕ → ℕ → Pixel)
    (s : TemplateDisplacement) (graphic : Img) (scale : ℚ) : PlaceResult :=
  match s.selected_area with
  | none => .raise .valueError
  | some (x1, y1, x2, y2) =>
    let area_width := x2 - x1
    let area_height := y2 - y1
    let sw0 : ℤ := truncQ ((area_width : ℚ) * scale)
    let sh0 : ℤ := truncQ ((area_height : ℚ) * scale)
    if graphic.height = 0 then .raise .zeroDivisionError
    else if sh0 = 0 then .raise .zeroDivisionError
    else
      match adjustDims graphic.width graphic.height sw0 sh0 with
      | none => .raise .zeroDivisionError
      | some (tw, th) =>
        let swF := tw.toNat
        let shF := th.toNat
        let x_offset := centerOffset x1 area_width swF
        let y_offset := centerOffset y1 area_height shF
        match s.displacement_map with
        | none => .raise .typeError
        | some m =>
          let regW := (sliceDims m x1 y1 x2 y2).1
          let regH := (sliceDims m x1 y1 x2 y2).2
          let displaced : Img :=
            ⟨swF, shF,
              displacedPix (resizePix graphic swF shF) area_width area_height
                swF shF regW regH m x1 y1⟩
          .ok (pasteImg s.template displaced x_offset y_offset)

/-- Displacement column exactly as the specification words it:
`new_x = x + round(crease_intensity * 8 * sin(y / 10))`, then clamped to
`[0, target_w - 1]`.  Written from the spec, to be compared with `newX`,
which is written from the code. -/
noncomputable def specNewX (x y v sw : ℕ) : ℤ :=
  min (max ((x : ℤ) + round (creaseIntensity v * 8 * Real.sin ((y : ℝ) / 10))) 0) ((sw : ℤ) - 1)

/-- Displacement row exactly as the specification words it:
`new_y = y + round(crease_intensity * 6)`, then clamped to
`[0, target_h - 1]`.  Written from the spec, to be compared with `newY`. -/
noncomputable def specNewY (y v sh : ℕ) : ℤ :=
  min (max ((y : ℤ) + round (creaseIntensity v * 6)) 0) ((sh : ℤ) - 1)

/-- Dimension check on an outcome: a returned image must have the stated
width and height; a raised exception returns no buffer. -/
def resultDimsOk : PlaceResult → ℕ → ℕ → Prop
  | .ok img, w, h => img.width = w ∧ img.height = h
  | .raise _, _, _ => True

/-- Concrete 1×1 opaque white image, for concrete evaluations. -/
def onePix : Img := ⟨1, 1, fun _ _ => ⟨255, 255, 255, 255⟩⟩

/-- Concrete resampling kernel (its pixel values are irrelevant to every
property proven here), for concrete evaluations. -/
def rp0 : Img → ℕ → ℕ → ℕ → ℕ → Pixel := fun _ _ _ _ _ => transparent

/-- Concrete 1×1 intensity field of value 255, for concrete evaluations. -/
def m0 : Field2D := ⟨1, 1, fun _ _ => 255⟩

lemma creaseIntensity_nonneg (v : ℕ) : 0 ≤ creaseIntensity v := Real.sqrt_nonneg _

lemma truncQ_nonneg {q : ℚ} (h : 0 ≤ q) : 0 ≤ truncQ q := by
  unfold truncQ
  rw [if_pos h]
  exact Int.floor_nonneg.mpr h

lemma truncQ_floor {q : ℚ} (h : 0 ≤ q) : truncQ q = ⌊q⌋ := by
  unfold truncQ
  rw [if_pos h]

/-- C5: for every four integer inputs to `set_selected_area`, the stored
rectangle `(left, top, right, bottom)` satisfies
`0 ≤ left ≤ right ≤ width` and `0 ≤ top ≤ bottom ≤ height` of the template:
reversed coordinates are swapped and all values are clamped to the bounds. -/
theorem set_selected_area_invariant (s : TemplateDisplacement) (x1 y1 x2 y2 : ℤ) :
    ∃ l t r b, (set_selected_area s x1 y1 x2 y2).selected_area = some (l, t, r, b) ∧
      l ≤ r ∧ r ≤ s.template.width ∧ t ≤ b ∧ b ≤ s.template.height := by
  simp only [set_selected_area, normalizeSel, clampCoord]
  refine ⟨_, _, _, _, rfl, ?_, ?_, ?_, ?_⟩ <;> (split <;> omega)

/-- C7: the centering offset of `place_graphic` equals
`left + floor((area - target) / 2)` with a true floor division. -/
theorem centerOffset_is_floor (c a sF : ℕ) :
    centerOffset c a sF = (c : ℤ) + ⌊((a : ℚ) - (sF : ℚ)) / 2⌋ := by
  unfold centerOffset
  congr 1
  rw [Int.fdiv_eq_ediv _ (by norm_num), show ((2 : ℚ)) = ((2 : ℕ) : ℚ) by norm_num,
    show ((a : ℚ) - (sF : ℚ)) = (((a : ℤ) - (sF : ℤ) : ℤ) : ℚ) by push_cast; ring,
    Rat.floor_intCast_div_natCast]
  norm_num

/-- C2: when the sampled intensity value is 255 (as it is at every pixel when
the field is uniformly 255 over the selection, for any scale factor), the
displacement loop computes `new_x = x` and `new_y = y` for every pixel of the
resized graphic. -/
theorem flat_field_zero_displacement (v sw sh x y : ℕ) (hv : v = 255)
    (hx : x < sw) (hy : y < sh) :
    newX x y v sw = (x : ℤ) ∧ newY y v sh = (y : ℤ) := by
  subst hv
  have hz : creaseIntensity 255 = 0 := by
    unfold creaseIntensity
    norm_num
  constructor
  · unfold newX truncR
    rw [hz, zero_mul, zero_mul, add_zero, if_pos (by positivity), Int.floor_natCast]
    omega
  · unfold newY truncR
    rw [hz, zero_mul, add_zero, if_pos (by positivity), Int.floor_natCast]
    omega

/-- Witness for the flat-field theorem at a concrete input. -/
theorem flat_field_zero_displacement_witness :
    (255 : ℕ) = 255 ∧ (0 : ℕ) < 1 ∧ (0 : ℕ) < 1 ∧
      (newX 0 0 255 1 = ((0 : ℕ) : ℤ) ∧ newY 0 255 1 = ((0 : ℕ) : ℤ)) :=
  ⟨rfl, Nat.one_pos, Nat.one_pos,
    flat_field_zero_displacement 255 1 1 0 0 rfl Nat.one_pos Nat.one_pos⟩

/-- Counterexample to the spec's rounded displacement formulas.  Horizontal:
at `x = 0, y = 5` with field value 0 the crease intensity is 1 and
`8·sin(0.5) ∈ (3.75, 4)`, so the spec's `x + round(...)` gives 4 while the
code's `int(x + ...)` truncation gives 3.  Vertical: at `y = 0` with field
value 102 the crease intensity is `√(27/125)` and `6·√(27/125) ∈ (2.5, 3)`,
so `y + round(...)` gives 3 while the code's truncation gives 2. -/
theorem displacement_round_formula_fails :
    specNewX 0 5 0 10 ≠ newX 0 5 0 10 ∧ specNewY 0 102 10 ≠ newY 0 102 10 := by
  have hc : creaseIntensity 0 = 1 := by
    unfold creaseIntensity
    norm_num
  have h5 : ((5 : ℕ) : ℝ) / 10 = 1 / 2 := by norm_num
  have hs1 : Real.sin (1 / 2) < 1 / 2 := Real.sin_lt (by norm_num)
  have hs2 : (15 : ℝ) / 32 < Real.sin (1 / 2) := by
    have h := Real.sin_gt_sub_cube (by norm_num : (0 : ℝ) < 1 / 2) (by norm_num : (1 : ℝ) / 2 ≤ 1)
    nlinarith [h]
  constructor
  · have hxval : ((0 : ℕ) : ℝ) + creaseIntensity 0 * 8 * Real.sin (((5 : ℕ) : ℝ) / 10) =
        8 * Real.sin (1 / 2) := by
      rw [hc, h5]
      push_cast
      ring
    have hfloor : ⌊(8 : ℝ) * Real.sin (1 / 2)⌋ = 3 := by
      rw [Int.floor_eq_iff]
      constructor
      · push_cast
        nlinarith
      · push_cast
        nlinarith
    have hround : round (creaseIntensity 0 * 8 * Real.sin (((5 : ℕ) : ℝ) / 10)) = 4 := by
      have : creaseIntensity 0 * 8 * Real.sin (((5 : ℕ) : ℝ) / 10) = 8 * Real.sin (1 / 2) := by
        rw [hc, h5]
        ring
      rw [this, round_eq, Int.floor_eq_iff]
      constructor
      · push_cast
        nlinarith
      · push_cast
        nlinarith
    have hcode : newX 0 5 0 10 = 3 := by
      unfold newX truncR
      rw [hxval, if_pos (by nlinarith), hfloor]
      norm_num
    have hspec : specNewX 0 5 0 10 = 4 := by
      unfold specNewX
      rw [hround]
      norm_num
    rw [hcode, hspec]
    norm_num
  · have hc2 : creaseIntensity 102 = Real.sqrt (27 / 125) := by
      unfold creaseIntensity
      norm_num
    have ht1 : Real.sqrt (27 / 125) < 1 / 2 := by
      rw [Real.sqrt_lt' (by norm_num)]
      norm_num
    have ht2 : (5 : ℝ) / 12 < Real.sqrt (27 / 125) := by
      rw [Real.lt_sqrt (by norm_num)]
      norm_num
    have hyval : ((0 : ℕ) : ℝ) + creaseIntensity 102 * 6 = 6 * Real.sqrt (27 / 125) := by
      rw [hc2]
      push_cast
      ring
    have hfloor2 : ⌊(6 : ℝ) * Real.sqrt (27 / 125)⌋ = 2 := by
      rw [Int.floor_eq_iff]
      constructor
      · push_cast
        nlinarith
      · push_cast
        nlinarith
    have hround2 : round (creaseIntensity 102 * 6) = 3 := by
      have : creaseIntensity 102 * 6 = 6 * Real.sqrt (27 / 125) := by
        rw [hc2]
        ring
      rw [this, round_eq, Int.floor_eq_iff]
      constructor
      · push_cast
        nlinarith
      · push_cast
        nlinarith
    have hcode2 : newY 0 102 10 = 2 := by
      unfold newY truncR
      rw [hyval, if_pos (by nlinarith), hfloor2]
      norm_num
    have hspec2 : specNewY 0 102 10 = 3 := by
      unfold specNewY
      rw [hround2]
      norm_num
    rw [hcode2, hspec2]
    norm_num

/-- C1 (amended): for every pixel of the resized graphic, the destination
coordinates computed by the displacement loop are
`new_x = x + floor(crease_intensity * 8 * sin(y / 10))` and
`new_y = y + floor(crease_intensity * 6)` — floor, not round: the code
truncates the float sum toward zero, which under the clamp is the same as
adding the floored displacement — each clamped into `[0, target-1]`. -/
theorem displacement_floor_formula (x y v sw sh : ℕ) :
    newX x y v sw =
      min (max ((x : ℤ) + ⌊creaseIntensity v * 8 * Real.sin ((y : ℝ) / 10)⌋) 0) ((sw : ℤ) - 1) ∧
    newY y v sh =
      min (max ((y : ℤ) + ⌊creaseIntensity v * 6⌋) 0) ((sh : ℤ) - 1) := by
  constructor
  · unfold newX truncR
    by_cases hp : (0 : ℝ) ≤ (x : ℝ) + creaseIntensity v * 8 * Real.sin ((y : ℝ) / 10)
    · rw [if_pos hp, show ((x : ℕ) : ℝ) = (((x : ℕ) : ℤ) : ℝ) by norm_cast,
        Int.floor_int_add]
    · rw [if_neg hp]
      push_neg at hp
      have h1 : ⌈(x : ℝ) + creaseIntensity v * 8 * Real.sin ((y : ℝ) / 10)⌉ ≤ 0 :=
        Int.ceil_le.mpr (by push_cast; linarith)
      have h2 : (x : ℤ) + ⌊creaseIntensity v * 8 * Real.sin ((y : ℝ) / 10)⌋ ≤ 0 := by
        have hfl : (((x : ℤ) + ⌊creaseIntensity v * 8 * Real.sin ((y : ℝ) / 10)⌋ : ℤ) : ℝ) ≤
            (x : ℝ) + creaseIntensity v * 8 * Real.sin ((y : ℝ) / 10) := by
          push_cast
          linarith [Int.floor_le (creaseIntensity v * 8 * Real.sin ((y : ℝ) / 10))]
        have : (((x : ℤ) + ⌊creaseIntensity v * 8 * Real.sin ((y : ℝ) / 10)⌋ : ℤ) : ℝ) < 0 :=
          lt_of_le_of_lt hfl hp
        exact_mod_cast this.le
      omega
  · unfold newY truncR
    have hc : 0 ≤ creaseIntensity v * 6 := mul_nonneg (creaseIntensity_nonneg v) (by norm_num)
    rw [if_pos (add_nonneg (by positivity) hc),
      show ((y : ℕ) : ℝ) = (((y : ℕ) : ℤ) : ℝ) by norm_cast, Int.floor_int_add]

/-- C10: inside the displacement loop every array access is in bounds: for a
source pixel `(x, y)` with `x < scaled_width` and `y < scaled_height`, the
mapped field coordinates are nonnegative (their upper bounds are enforced by
the loop's explicit guard before any field read), and the clamped destination
satisfies `0 ≤ new_x < scaled_width` and `0 ≤ new_y < scaled_height`, so the
write into the displaced buffer and the read of the source pixel are both in
range and the `IndexError` handler around the loop is unreachable. -/
theorem loop_access_in_bounds (aw ah sw sh x y v : ℕ) (hx : x < sw) (hy : y < sh) :
    0 ≤ truncQ ((x : ℚ) * ((aw : ℚ) / (sw : ℚ))) ∧
    0 ≤ truncQ ((y : ℚ) * ((ah : ℚ) / (sh : ℚ))) ∧
    0 ≤ newX x y v sw ∧ newX x y v sw < (sw : ℤ) ∧
    0 ≤ newY y v sh ∧ newY y v sh < (sh : ℤ) := by
  refine ⟨truncQ_nonneg (by positivity), truncQ_nonneg (by positivity), ?_, ?_, ?_, ?_⟩ <;>
    first
      | (unfold newX; omega)
      | (unfold newY; omega)

/-- Witness for the loop-bounds theorem at a concrete input. -/
theorem loop_access_in_bounds_witness :
    (0 : ℕ) < 1 ∧
      (0 ≤ truncQ (((0 : ℕ) : ℚ) * (((1 : ℕ) : ℚ) / ((1 : ℕ) : ℚ))) ∧
       0 ≤ truncQ (((0 : ℕ) : ℚ) * (((1 : ℕ) : ℚ) / ((1 : ℕ) : ℚ))) ∧
       0 ≤ newX 0 0 0 1 ∧ newX 0 0 0 1 < ((1 : ℕ) : ℤ) ∧
       0 ≤ newY 0 0 1 ∧ newY 0 0 1 < ((1 : ℕ) : ℤ)) :=
  ⟨Nat.one_pos, loop_access_in_bounds 1 1 1 1 0 0 0 Nat.one_pos Nat.one_pos⟩

/-- C6: whenever the graphic has positive dimensions and the pre-adjustment
target height is positive (the conditions under which the code reaches and
survives this step), the aspect adjustment recomputes exactly one dimension
from the graphic's aspect ratio: if `gw/gh > sw/sh` then the new width is
`target_h * (gw/gh)` truncated (and lies within one unit below the exact
value), otherwise the new height is `target_w / (gw/gh)` truncated (likewise
within one unit), so the resized dimensions follow the graphic's native
aspect ratio within integer-rounding tolerance, never the selection's. -/
theorem adjustDims_follows_graphic_aspect (gw gh : ℕ) (sw sh : ℤ)
    (hgw : 1 ≤ gw) (hgh : 1 ≤ gh) (hsw : 0 ≤ sw) (hsh : 1 ≤ sh) :
    ((sw : ℚ) / (sh : ℚ) < (gw : ℚ) / (gh : ℚ) →
      adjustDims gw gh sw sh = some (truncQ ((sh : ℚ) * ((gw : ℚ) / (gh : ℚ))), sh) ∧
      (truncQ ((sh : ℚ) * ((gw : ℚ) / (gh : ℚ))) : ℚ) ≤ (sh : ℚ) * ((gw : ℚ) / (gh : ℚ)) ∧
      (sh : ℚ) * ((gw : ℚ) / (gh : ℚ)) < truncQ ((sh : ℚ) * ((gw : ℚ) / (gh : ℚ))) + 1) ∧
    ((gw : ℚ) / (gh : ℚ) ≤ (sw : ℚ) / (sh : ℚ) →
      adjustDims gw gh sw sh = some (sw, truncQ ((sw : ℚ) / ((gw : ℚ) / (gh : ℚ)))) ∧
      (truncQ ((sw : ℚ) / ((gw : ℚ) / (gh : ℚ))) : ℚ) ≤ (sw : ℚ) / ((gw : ℚ) / (gh : ℚ)) ∧
      (sw : ℚ) / ((gw : ℚ) / (gh : ℚ)) < truncQ ((sw : ℚ) / ((gw : ℚ) / (gh : ℚ))) + 1) := by
  have hoa : 0 < (gw : ℚ) / (gh : ℚ) := by
    apply div_pos
    · exact_mod_cast hgw
    · exact_mod_cast hgh
  have key : ∀ q : ℚ, 0 ≤ q → (truncQ q : ℚ) ≤ q ∧ q < (truncQ q : ℚ) + 1 := by
    intro q hq
    rw [truncQ_floor hq]
    exact ⟨Int.floor_le q, Int.lt_floor_add_one q⟩
  constructor
  · intro hlt
    simp only [adjustDims]
    rw [if_pos hlt]
    have hq : 0 ≤ (sh : ℚ) * ((gw : ℚ) / (gh : ℚ)) := by
      apply mul_nonneg _ hoa.le
      exact_mod_cast (le_trans zero_le_one hsh)
    exact ⟨rfl, (key _ hq).1, (key _ hq).2⟩
  · intro hle
    simp only [adjustDims]
    rw [if_neg (not_lt.mpr hle), if_neg (by omega : ¬ gw = 0)]
    have hq : 0 ≤ (sw : ℚ) / ((gw : ℚ) / (gh : ℚ)) := by
      apply div_nonneg _ hoa.le
      exact_mod_cast hsw
    exact ⟨rfl, (key _ hq).1, (key _ hq).2⟩

/-- Witness for the aspect-adjustment theorem at a concrete input. -/
theorem adjustDims_follows_graphic_aspect_witness :
    (1 : ℕ) ≤ 1 ∧ (0 : ℤ) ≤ 0 ∧ (1 : ℤ) ≤ 1 ∧
      (((0 : ℤ) : ℚ) / ((1 : ℤ) : ℚ) < ((1 : ℕ) : ℚ) / ((1 : ℕ) : ℚ)) ∧
      (adjustDims 1 1 0 1 = some (truncQ (((1 : ℤ) : ℚ) * (((1 : ℕ) : ℚ) / ((1 : ℕ) : ℚ))), 1) ∧
       (truncQ (((1 : ℤ) : ℚ) * (((1 : ℕ) : ℚ) / ((1 : ℕ) : ℚ))) : ℚ) ≤
         ((1 : ℤ) : ℚ) * (((1 : ℕ) : ℚ) / ((1 : ℕ) : ℚ)) ∧
       ((1 : ℤ) : ℚ) * (((1 : ℕ) : ℚ) / ((1 : ℕ) : ℚ)) <
         (truncQ (((1 : ℤ) : ℚ) * (((1 : ℕ) : ℚ) / ((1 : ℕ) : ℚ))) : ℚ) + 1) :=
  ⟨le_rfl, le_rfl, le_rfl, by norm_num,
    (adjustDims_follows_graphic_aspect 1 1 0 1 le_rfl le_rfl le_rfl le_rfl).1 (by norm_num)⟩

lemma adjustDims_isSome (gw gh : ℕ) (sw sh : ℤ) (hgw : gw ≠ 0) :
    ∃ tw th, adjustDims gw gh sw sh = some (tw, th) := by
  simp only [adjustDims]
  by_cases h1 : (gw : ℚ) / (gh : ℚ) > (sw : ℚ) / (sh : ℚ)
  · rw [if_pos h1]
    exact ⟨_, _, rfl⟩
  · rw [if_neg h1, if_neg hgw]
    exact ⟨_, _, rfl⟩

lemma place_raise_of_zero_height (rp : Img → ℕ → ℕ → ℕ → ℕ → Pixel) (t : Img)
    (mo : Option Field2D) (x1 y1 x2 y2 : ℕ) (g : Img) (sc : ℚ)
    (h : truncQ (((y2 - y1 : ℕ) : ℚ) * sc) = 0) :
    place_graphic rp ⟨t, mo, some (x1, y1, x2, y2)⟩ g sc = .raise .zeroDivisionError := by
  simp only [place_graphic]
  by_cases hg : g.height = 0
  · rw [if_pos hg]
  · rw [if_neg hg, if_pos h]

lemma place_graphic_ok_eq (rp : Img → ℕ → ℕ → ℕ → ℕ → Pixel) (t : Img) (m : Field2D)
    (x1 y1 x2 y2 : ℕ) (g : Img) (sc : ℚ) (tw th : ℤ)
    (hg : ¬ g.height = 0)
    (hsh : ¬ truncQ (((y2 - y1 : ℕ) : ℚ) * sc) = 0)
    (htw : adjustDims g.width g.height (truncQ (((x2 - x1 : ℕ) : ℚ) * sc))
      (truncQ (((y2 - y1 : ℕ) : ℚ) * sc)) = some (tw, th)) :
    place_graphic rp ⟨t, some m, some (x1, y1, x2, y2)⟩ g sc =
      .ok (pasteImg t
        ⟨tw.toNat, th.toNat,
          displacedPix (rp g tw.toNat th.toNat) (x2 - x1) (y2 - y1) tw.toNat th.toNat
            (sliceDims m x1 y1 x2 y2).1 (sliceDims m x1 y1 x2 y2).2 m x1 y1⟩
        (centerOffset x1 (x2 - x1) tw.toNat) (centerOffset y1 (y2 - y1) th.toNat)) := by
  simp only [place_graphic]
  rw [if_neg hg, if_neg hsh, htw]

lemma place_ok (rp : Img → ℕ → ℕ → ℕ → ℕ → Pixel) (t : Img) (m : Field2D)
    (x1 y1 x2 y2 : ℕ) (g : Img) (sc : ℚ)
    (hgw : 1 ≤ g.width) (hgh : 1 ≤ g.height)
    (hsh : truncQ (((y2 - y1 : ℕ) : ℚ) * sc) ≠ 0) :
    (place_graphic rp ⟨t, some m, some (x1, y1, x2, y2)⟩ g sc).isOk = true := by
  obtain ⟨tw, th, htw⟩ := adjustDims_isSome g.width g.height
    (truncQ (((x2 - x1 : ℕ) : ℚ) * sc)) (truncQ (((y2 - y1 : ℕ) : ℚ) * sc)) (by omega)
  rw [place_graphic_ok_eq rp t m x1 y1 x2 y2 g sc tw th (by omega) hsh htw]
  rfl

/-- C3 (amended): when the computed target height truncates to 0 the
composite fails by raising an uncaught `ZeroDivisionError` at the aspect
computation — no `DegenerateScale` value exists anywhere in the code — and
when only the target width truncates to 0 the aspect step recomputes it from
the graphic's aspect ratio and the composite proceeds and returns a buffer. -/
theorem degenerate_scale_behaviour (rp : Img → ℕ → ℕ → ℕ → ℕ → Pixel) (t : Img)
    (m : Field2D) (x1 y1 x2 y2 : ℕ) (g : Img) (sc : ℚ) :
    (truncQ (((y2 - y1 : ℕ) : ℚ) * sc) = 0 →
      place_graphic rp ⟨t, some m, some (x1, y1, x2, y2)⟩ g sc = .raise .zeroDivisionError) ∧
    (truncQ (((x2 - x1 : ℕ) : ℚ) * sc) = 0 → truncQ (((y2 - y1 : ℕ) : ℚ) * sc) ≠ 0 →
      1 ≤ g.width → 1 ≤ g.height →
      (place_graphic rp ⟨t, some m, some (x1, y1, x2, y2)⟩ g sc).isOk = true) :=
  ⟨fun h => place_raise_of_zero_height rp t (some m) x1 y1 x2 y2 g sc h,
   fun _ hsh hgw hgh => place_ok rp t m x1 y1 x2 y2 g sc hgw hgh hsh⟩

/-- Witness for the degenerate-scale theorem: a zero-height selection raises
`ZeroDivisionError`; a zero-width selection with positive height succeeds. -/
theorem degenerate_scale_behaviour_witness :
    (truncQ (((0 - 0 : ℕ) : ℚ) * 1) = 0 ∧
      place_graphic rp0 ⟨onePix, some m0, some (0, 0, 10, 0)⟩ onePix 1 =
        .raise .zeroDivisionError) ∧
    (truncQ (((0 - 0 : ℕ) : ℚ) * 1) = 0 ∧ truncQ (((5 - 0 : ℕ) : ℚ) * 1) ≠ 0 ∧
      (1 : ℕ) ≤ onePix.width ∧ (1 : ℕ) ≤ onePix.height ∧
      (place_graphic rp0 ⟨onePix, some m0, some (0, 0, 0, 5)⟩ onePix 1).isOk = true) :=
  ⟨⟨by norm_num [truncQ], (degenerate_scale_behaviour rp0 onePix m0 0 0 10 0 onePix 1).1
      (by norm_num [truncQ])⟩,
   ⟨by norm_num [truncQ], by norm_num [truncQ], le_rfl, le_rfl,
     (degenerate_scale_behaviour rp0 onePix m0 0 0 0 5 onePix 1).2
       (by norm_num [truncQ]) (by norm_num [truncQ]) le_rfl le_rfl⟩⟩

/-- Counterexample to the claimed `DegenerateScale` result: the spec's own
example (scale 0.001 on a 10×10 selection) makes the code raise an uncaught
`ZeroDivisionError` at `scaled_width / scaled_height`; no error value is
returned and no `DegenerateScale` error exists in the code. -/
theorem degenerate_scale_counterexample :
    place_graphic rp0 ⟨onePix, some m0, some (0, 0, 10, 10)⟩ onePix (1 / 1000) =
      .raise .zeroDivisionError := by
  simp only [place_graphic]
  norm_num [truncQ, onePix]

/-- C4 (amended): calling `place_graphic` before any selection is set raises
an uncaught `ValueError` — an exception, not a returned `InvalidSelection`
value.  A degenerate rectangle is not rejected by that check: a zero-height
rectangle leads to an uncaught `ZeroDivisionError` further down, and a
zero-width rectangle with positive height is not rejected at all — the
composite succeeds and returns a buffer. -/
theorem invalid_selection_behaviour (rp : Img → ℕ → ℕ → ℕ → ℕ → Pixel) (t : Img)
    (m : Field2D) (x1 y1 x2 y2 : ℕ) (g : Img) (sc : ℚ) :
    place_graphic rp ⟨t, some m, none⟩ g sc = .raise .valueError ∧
    place_graphic rp ⟨t, some m, some (x1, y1, x2, y1)⟩ g sc = .raise .zeroDivisionError ∧
    (1 ≤ g.width → 1 ≤ g.height → truncQ (((y2 - y1 : ℕ) : ℚ) * sc) ≠ 0 →
      (place_graphic rp ⟨t, some m, some (x1, y1, x1, y2)⟩ g sc).isOk = true) :=
  ⟨rfl,
   place_raise_of_zero_height rp t (some m) x1 y1 x2 y1 g sc (by simp [truncQ]),
   fun hgw hgh hsh => place_ok rp t m x1 y1 x1 y2 g sc hgw hgh hsh⟩

/-- Witness for the invalid-selection theorem at concrete inputs. -/
theorem invalid_selection_behaviour_witness :
    place_graphic rp0 ⟨onePix, some m0, none⟩ onePix 1 = .raise .valueError ∧
    place_graphic rp0 ⟨onePix, some m0, some (0, 0, 7, 0)⟩ onePix 1 =
      .raise .zeroDivisionError ∧
    ((1 : ℕ) ≤ onePix.width ∧ (1 : ℕ) ≤ onePix.height ∧
      truncQ (((5 - 0 : ℕ) : ℚ) * 1) ≠ 0 ∧
      (place_graphic rp0 ⟨onePix, some m0, some (0, 0, 0, 5)⟩ onePix 1).isOk = true) :=
  ⟨(invalid_selection_behaviour rp0 onePix m0 0 0 7 5 onePix 1).1,
   (invalid_selection_behaviour rp0 onePix m0 0 0 7 5 onePix 1).2.1,
   le_rfl, le_rfl, by norm_num [truncQ],
   (invalid_selection_behaviour rp0 onePix m0 0 0 7 5 onePix 1).2.2 le_rfl le_rfl
     (by norm_num [truncQ])⟩

/-- Counterexample to the claimed returned `InvalidSelection` value: with no
selection set, the code raises an uncaught `ValueError` — the error is
thrown, not returned, and no `InvalidSelection` value exists in the code. -/
theorem invalid_selection_counterexample :
    place_graphic rp0 ⟨onePix, some m0, none⟩ onePix 1 = .raise .valueError := rfl

lemma sliceDims_snd_zero (m : Field2D) (x1 y1 x2 y2 : ℕ) (h : m.height ≤ y1) :
    (sliceDims m x1 y1 x2 y2).2 = 0 := by
  simp only [sliceDims]
  omega

lemma dispStep_skip (gpix : ℕ → ℕ → Pixel) (aw ah sw sh regW : ℕ)
    (m : Field2D) (x1 y1 : ℕ) (acc : ℕ → ℕ → Pixel) (p : ℕ × ℕ) :
    dispStep gpix aw ah sw sh regW 0 m x1 y1 acc p = acc := by
  simp only [dispStep]
  rw [if_pos]
  left
  have h0 : (0 : ℤ) ≤ truncQ ((p.1 : ℚ) * ((ah : ℚ) / (sh : ℚ))) :=
    truncQ_nonneg (by positivity)
  exact_mod_cast h0

lemma displacedPix_of_regH_zero (gpix : ℕ → ℕ → Pixel) (aw ah sw sh regW : ℕ)
    (m : Field2D) (x1 y1 : ℕ) :
    displacedPix gpix aw ah sw sh regW 0 m x1 y1 = fun _ _ => transparent := by
  unfold displacedPix
  generalize scanOrder sh sw = l
  induction l with
  | nil => rfl
  | cons p l ih =>
    rw [List.foldl_cons, dispStep_skip]
    exact ih

lemma muldiv255_full {d : ℕ} (h : d ≤ 255) : muldiv255 d 255 = d := by
  unfold muldiv255
  omega

lemma muldiv255_zero (a : ℕ) : muldiv255 a 0 = 0 := by
  simp [muldiv255]

lemma blendPix_transparent {d : Pixel} (hr : d.r ≤ 255) (hg : d.g ≤ 255)
    (hb : d.b ≤ 255) (ha : d.a ≤ 255) :
    blendPix transparent.a d transparent = d := by
  refine Pixel.ext ?_ ?_ ?_ ?_ <;>
    simp [blendPix, blendChan, transparent, muldiv255_zero, muldiv255_full, hr, hg, hb, ha]

lemma pasteImg_transparent (t : Img) (w h : ℕ) (xo yo : ℤ)
    (hb : ∀ dy dx, (t.pix dy dx).r ≤ 255 ∧ (t.pix dy dx).g ≤ 255 ∧
      (t.pix dy dx).b ≤ 255 ∧ (t.pix dy dx).a ≤ 255) :
    pasteImg t ⟨w, h, fun _ _ => transparent⟩ xo yo = t := by
  refine Img.ext rfl rfl (funext fun dy => funext fun dx => ?_)
  simp only [pasteImg]
  split
  · exact blendPix_transparent (hb dy dx).1 (hb dy dx).2.1 (hb dy dx).2.2.1 (hb dy dx).2.2.2
  · rfl

/-- C8 (amended): the code performs no defensive bounds check when slicing the
field — no `SelectionOutOfBounds` value exists.  When the selection's rows lie
entirely outside the intensity field, the numpy slice is simply empty, the
in-loop guard skips every pixel, the displaced buffer stays fully transparent,
and the composite succeeds, returning the template copy unchanged. -/
theorem selection_outside_field_behaviour (rp : Img → ℕ → ℕ → ℕ → ℕ → Pixel)
    (t : Img) (m : Field2D) (x1 y1 x2 y2 : ℕ) (g : Img) (sc : ℚ)
    (hout : m.height ≤ y1) (hgw : 1 ≤ g.width) (hgh : 1 ≤ g.height)
    (hsh : truncQ (((y2 - y1 : ℕ) : ℚ) * sc) ≠ 0)
    (hb : ∀ dy dx, (t.pix dy dx).r ≤ 255 ∧ (t.pix dy dx).g ≤ 255 ∧
      (t.pix dy dx).b ≤ 255 ∧ (t.pix dy dx).a ≤ 255) :
    place_graphic rp ⟨t, some m, some (x1, y1, x2, y2)⟩ g sc = .ok t := by
  obtain ⟨tw, th, htw⟩ := adjustDims_isSome g.width g.height
    (truncQ (((x2 - x1 : ℕ) : ℚ) * sc)) (truncQ (((y2 - y1 : ℕ) : ℚ) * sc)) (by omega)
  rw [place_graphic_ok_eq rp t m x1 y1 x2 y2 g sc tw th (by omega) hsh htw,
    sliceDims_snd_zero m x1 y1 x2 y2 hout, displacedPix_of_regH_zero,
    pasteImg_transparent t tw.toNat th.toNat _ _ hb]

/-- Witness for the out-of-range-selection theorem at a concrete input. -/
theorem selection_outside_field_behaviour_witness :
    m0.height ≤ 2 ∧ (1 : ℕ) ≤ onePix.width ∧ (1 : ℕ) ≤ onePix.height ∧
      truncQ (((4 - 2 : ℕ) : ℚ) * 1) ≠ 0 ∧
      place_graphic rp0 ⟨onePix, some m0, some (0, 2, 1, 4)⟩ onePix 1 = .ok onePix :=
  ⟨by norm_num [m0], le_rfl, le_rfl, by norm_num [truncQ],
    selection_outside_field_behaviour rp0 onePix m0 0 2 1 4 onePix 1
      (by norm_num [m0]) le_rfl le_rfl (by norm_num [truncQ])
      (fun dy dx => ⟨le_rfl, le_rfl, le_rfl, le_rfl⟩)⟩

/-- Counterexample to the claimed `SelectionOutOfBounds` result: a composite
call whose selection rows lie entirely beyond the intensity field succeeds
and returns a buffer — no error value of any kind is produced. -/
theorem selection_outside_field_counterexample :
    (place_graphic rp0 ⟨onePix, some m0, some (0, 3, 1, 5)⟩ onePix 1).isOk = true := by
  simp only [place_graphic]
  norm_num [truncQ, onePix, adjustDims, PlaceResult.isOk]

/-- C9: every successful `place_graphic` call returns a buffer whose width
and height equal the template's (a failed call returns no buffer); the state
itself — template and intensity field — is never written, the result being
assembled by pasting onto a copy of the template. -/
theorem place_graphic_result_dims (rp : Img → ℕ → ℕ → ℕ → ℕ → Pixel)
    (s : TemplateDisplacement) (g : Img) (sc : ℚ) :
    resultDimsOk (place_graphic rp s g sc) s.template.width s.template.height := by
  obtain ⟨t, mo, so⟩ := s
  rcases so with _ | ⟨x1, y1, x2, y2⟩
  · exact trivial
  · simp only [place_graphic]
    split
    · exact trivial
    · split
      · exact trivial
      · split
        · exact trivial
        · split
          · exact trivial
          · exact ⟨rfl, rfl⟩
